import Mathlib

set_option maxRecDepth 100000

/-!
Shallow embedding of the `EuclideanDistance` tool
(`src/whitebox-tools-app/src/tools/gis_analysis/euclidean_distance.rs`),
the Shih and Wu (2004) two-scan Euclidean distance transform.

Modelling choices:
* `f64` raster cell values are modelled as integers (`ℤ`); the working
  squared-distance grid, which the code seeds with `f64::INFINITY`, is
  modelled as `WithTop ℤ` (`⊤` plays the role of `+infinity`).  Every
  arithmetic step the scans perform (odd integer step costs accumulated
  from 0, order comparisons, equality against the nodata sentinel) stays
  inside the integers whenever the raster holds integral values — the
  universal domain of all scenarios below — and `f64` arithmetic is
  exact there, so the integer model is faithful on that domain.  The
  raster resolutions, which only scale the final square root, are kept
  rational.
* the `Raster`/`Array2D` accessor `get_value` returns the grid's nodata
  value for out-of-range coordinates; `getQ`/`getV` below reproduce that.
* mutable grids are modelled as functions `Int → Int → α` updated
  pointwise, and each scan pass is a left fold over the list of cell
  coordinates in the order the Rust loops visit them.
-/

namespace EuclideanDistance

/-- Values of the working squared-distance grid: an integer or `⊤`
(modelling `f64::INFINITY`, the `inf_val` of the source). -/
abbrev V : Type := WithTop ℤ

/-- The grid metadata the tool reads from the input raster:
dimensions, the nodata sentinel and the two resolutions. -/
structure GridCfg where
  rows : Int
  cols : Int
  nodata : ℤ
  resX : ℚ
  resY : ℚ
  deriving DecidableEq

/-- Coordinates inside `[0, rows) × [0, cols)`. -/
abbrev inBounds (cfg : GridCfg) (r c : Int) : Prop :=
  0 ≤ r ∧ r < cfg.rows ∧ 0 ≤ c ∧ c < cfg.cols

/-- Bounded read of a scalar grid: out-of-range coordinates yield the
nodata sentinel (`Array2D::get_value` / `Raster::get_value`). -/
def getQ (cfg : GridCfg) (f : Int → Int → ℤ) (r c : Int) : ℤ :=
  if inBounds cfg r c then f r c else cfg.nodata

/-- Bounded read of the squared-distance grid. -/
def getV (cfg : GridCfg) (f : Int → Int → V) (r c : Int) : V :=
  if inBounds cfg r c then f r c else (cfg.nodata : V)

/-- Pointwise functional update (`set_value`). -/
def updF {α : Type} (f : Int → Int → α) (r c : Int) (v : α) : Int → Int → α :=
  fun r' c' => if r' = r ∧ c' = c then v else f r' c'

/-- `let dx = [-1, -1, 0, 1, 1, 1, 0, -1];` — column offsets of the
eight neighbours, indices 0..3 used by the forward scan, 4..7 by the
backward scan. -/
def dx (i : Nat) : Int := [-1, -1, 0, 1, 1, 1, 0, -1].getD i 0

/-- `let dy = [0, -1, -1, -1, 0, 1, 1, 1];` — row offsets. -/
def dy (i : Nat) : Int := [0, -1, -1, -1, 0, 1, 1, 1].getD i 0

/-- `let gx = [1.0, 1.0, 0.0, 1.0, 1.0, 1.0, 0.0, 1.0];` — unit x-step
added to the winning neighbour's offset-X. -/
def gx (i : Nat) : ℤ := [1, 1, 0, 1, 1, 1, 0, 1].getD i 0

/-- `let gy = [0.0, 1.0, 1.0, 1.0, 0.0, 1.0, 1.0, 1.0];` — unit y-step. -/
def gy (i : Nat) : ℤ := [0, 1, 1, 1, 0, 1, 1, 1].getD i 0

/-- The three working grids threaded through the scans: `output` holds
the squared distances, `rx`/`ry` the accumulated offset vectors. -/
structure ScanState where
  out : Int → Int → V
  rx : Int → Int → ℤ
  ry : Int → Int → ℤ

/-- Step cost `h` of the forward scan (the `match i` at lines 249-254):
`0 => 2*rx+1, 1 => 2*(rx+ry+1), 2 => 2*ry+1, _ => 2*(rx+ry+1)`. -/
def hF (cfg : GridCfg) (st : ScanState) (y x : Int) (i : Nat) : ℤ :=
  match i with
  | 0 => 2 * getQ cfg st.rx y x + 1
  | 1 => 2 * (getQ cfg st.rx y x + getQ cfg st.ry y x + 1)
  | 2 => 2 * getQ cfg st.ry y x + 1
  | _ => 2 * (getQ cfg st.rx y x + getQ cfg st.ry y x + 1)

/-- Step cost `h` of the backward scan (the `match i` at lines 291-296):
`5 => 2*(rx+ry+1), 4 => 2*rx+1, 6 => 2*ry+1, _ => 2*(rx+ry+1)`. -/
def hB (cfg : GridCfg) (st : ScanState) (y x : Int) (i : Nat) : ℤ :=
  match i with
  | 5 => 2 * (getQ cfg st.rx y x + getQ cfg st.ry y x + 1)
  | 4 => 2 * getQ cfg st.rx y x + 1
  | 6 => 2 * getQ cfg st.ry y x + 1
  | _ => 2 * (getQ cfg st.rx y x + getQ cfg st.ry y x + 1)

/-- The inner neighbour loop of a scan pass: starting from
`z_min = inf_val, which_cell = 0`, fold over the neighbour indices,
and for each neighbour whose squared-distance value is not nodata take
`z2 + h` as candidate, keeping the first strict minimum. -/
def neighborScan (cfg : GridCfg) (hfun : GridCfg → ScanState → Int → Int → Nat → ℤ)
    (st : ScanState) (row col : Int) (idxs : List Nat) : V × Nat :=
  idxs.foldl
    (fun acc i =>
      let x := col + dx i
      let y := row + dy i
      let z2 := getV cfg st.out y x
      if z2 ≠ (cfg.nodata : V) then
        let z2h := z2 + (hfun cfg st y x i : V)
        if z2h < acc.1 then (z2h, i) else acc
      else acc)
    ((⊤ : V), 0)

/-- Processing of one cell by a scan pass: skip cells whose squared
distance is 0; otherwise run the neighbour loop and, if the minimum
candidate is strictly below the current value, overwrite the squared
distance and recompute the offset vector from the winning neighbour. -/
def cellStep (cfg : GridCfg) (hfun : GridCfg → ScanState → Int → Int → Nat → ℤ)
    (idxs : List Nat) (st : ScanState) (row col : Int) : ScanState :=
  let z := getV cfg st.out row col
  if z ≠ 0 then
    let p := neighborScan cfg hfun st row col idxs
    if p.1 < z then
      let x := col + dx p.2
      let y := row + dy p.2
      { out := updF st.out row col p.1
        rx := updF st.rx row col (getQ cfg st.rx y x + gx p.2)
        ry := updF st.ry row col (getQ cfg st.ry y x + gy p.2) }
    else st
  else st

/-- The body of the neighbour loop as a standalone step function
(identical to the lambda folded by `neighborScan`). -/
def scanStep (cfg : GridCfg) (hfun : GridCfg → ScanState → Int → Int → Nat → ℤ)
    (st : ScanState) (row col : Int) (acc : V × Nat) (i : Nat) : V × Nat :=
  let x := col + dx i
  let y := row + dy i
  let z2 := getV cfg st.out y x
  if z2 ≠ (cfg.nodata : V) then
    let z2h := z2 + (hfun cfg st y x i : V)
    if z2h < acc.1 then (z2h, i) else acc
  else acc

/-- The eligibility test of neighbour `i` of cell `(row, col)`: the
`z2 != nodata` guard of the scan loops. -/
def eligible (cfg : GridCfg) (st : ScanState) (row col : Int) (i : Nat) : Prop :=
  getV cfg st.out (row + dy i) (col + dx i) ≠ (cfg.nodata : V)

instance (cfg : GridCfg) (st : ScanState) (row col : Int) (i : Nat) :
    Decidable (eligible cfg st row col i) := by
  unfold eligible; infer_instance

/-- The candidate squared distance offered by neighbour `i` of cell
`(row, col)`: the `z2 + h` of the scan loops. -/
def candidate (cfg : GridCfg) (hfun : GridCfg → ScanState → Int → Int → Nat → ℤ)
    (st : ScanState) (row col : Int) (i : Nat) : V :=
  getV cfg st.out (row + dy i) (col + dx i) +
    ((hfun cfg st (row + dy i) (col + dx i) i : ℤ) : V)

/-- The cells in the row-major order of the forward pass
(`for row in 0..rows { for col in 0..columns { ... } }`). -/
def cellsFwd (cfg : GridCfg) : List (Int × Int) :=
  (List.range cfg.rows.toNat).flatMap
    (fun r => (List.range cfg.cols.toNat).map (fun c => (Int.ofNat r, Int.ofNat c)))

/-- A scan pass: fold `cellStep` over a list of cells. -/
def scanPass (cfg : GridCfg) (hfun : GridCfg → ScanState → Int → Int → Nat → ℤ)
    (idxs : List Nat) (cells : List (Int × Int)) (st : ScanState) : ScanState :=
  cells.foldl (fun st rc => cellStep cfg hfun idxs st rc.1 rc.2) st

/-- The Initializer (lines 221-236): squared distance 0 where the input
value is non-zero, `inf_val` otherwise; `rx`/`ry` start at 0
(`Array2D::new(rows, columns, 0f64, nodata)`). -/
def initState (cfg : GridCfg) (input : Int → Int → ℤ) : ScanState :=
  { out := fun r c => if getQ cfg input r c ≠ 0 then (0 : V) else (⊤ : V)
    rx := fun _ _ => 0
    ry := fun _ _ => 0 }

/-- State after the forward pass (lines 238-275): top-left to
bottom-right, neighbour indices 0..3. -/
def forwardPass (cfg : GridCfg) (input : Int → Int → ℤ) : ScanState :=
  scanPass cfg hF [0, 1, 2, 3] (cellsFwd cfg) (initState cfg input)

/-- State after the backward pass (lines 280-317): bottom-right to
top-left (the reverse of the forward order), neighbour indices 4..7. -/
def backwardPass (cfg : GridCfg) (input : Int → Int → ℤ) : ScanState :=
  scanPass cfg hB [4, 5, 6, 7] (cellsFwd cfg).reverse (forwardPass cfg input)

/-- `let cell_size = (input.configs.resolution_x + input.configs.resolution_y) / 2.0;` -/
def cellSize (cfg : GridCfg) : ℚ := (cfg.resX + cfg.resY) / 2

/-- The squared distance the Finalizer reads back for a cell. -/
def finalSq (cfg : GridCfg) (input : Int → Int → ℤ) (r c : Int) : V :=
  (backwardPass cfg input).out r c

/-- The Finalizer (lines 322-338): where the input is not nodata the
output is `sqrt(squared distance) * cell_size` (with `sqrt ⊤ = ⊤`,
matching `f64::INFINITY.sqrt()`), elsewhere it is the nodata value. -/
noncomputable def finalOutput (cfg : GridCfg) (input : Int → Int → ℤ) (r c : Int) :
    WithTop ℝ :=
  if getQ cfg input r c ≠ cfg.nodata then
    WithTop.map (fun q : ℤ => Real.sqrt (q : ℝ) * (cellSize cfg : ℝ))
      (finalSq cfg input r c)
  else ((cfg.nodata : ℝ) : WithTop ℝ)

/-! ### Characterization of the neighbour loop -/

/-- `neighborScan` is the fold of `scanStep`. -/
theorem neighborScan_eq_foldl (cfg : GridCfg) (hfun : GridCfg → ScanState → Int → Int → Nat → ℤ)
    (st : ScanState) (row col : Int) (idxs : List Nat) :
    neighborScan cfg hfun st row col idxs =
      idxs.foldl (scanStep cfg hfun st row col) ((⊤ : V), 0) := rfl

/-- One step of the neighbour loop, in terms of `eligible` and `candidate`. -/
theorem scanStep_eq (cfg : GridCfg) (hfun : GridCfg → ScanState → Int → Int → Nat → ℤ)
    (st : ScanState) (row col : Int) (acc : V × Nat) (i : Nat) :
    scanStep cfg hfun st row col acc i =
      if eligible cfg st row col i then
        (if candidate cfg hfun st row col i < acc.1
          then (candidate cfg hfun st row col i, i) else acc)
      else acc := rfl

/-- The accumulator of the neighbour loop either stays put or records an
eligible index together with its candidate value, never increases, and
ends up below every eligible candidate. -/
theorem scanFold_char (cfg : GridCfg) (hfun : GridCfg → ScanState → Int → Int → Nat → ℤ)
    (st : ScanState) (row col : Int) :
    ∀ (l : List Nat) (acc : V × Nat),
      (l.foldl (scanStep cfg hfun st row col) acc = acc ∨
        ((l.foldl (scanStep cfg hfun st row col) acc).2 ∈ l ∧
          eligible cfg st row col (l.foldl (scanStep cfg hfun st row col) acc).2 ∧
          (l.foldl (scanStep cfg hfun st row col) acc).1 =
            candidate cfg hfun st row col (l.foldl (scanStep cfg hfun st row col) acc).2)) ∧
      (l.foldl (scanStep cfg hfun st row col) acc).1 ≤ acc.1 ∧
      ∀ j ∈ l, eligible cfg st row col j →
        (l.foldl (scanStep cfg hfun st row col) acc).1 ≤
          candidate cfg hfun st row col j := by
  intro l
  induction l with
  | nil =>
    intro acc
    refine ⟨Or.inl rfl, le_refl _, ?_⟩
    intro j hj
    exact absurd hj (List.not_mem_nil j)
  | cons i l ih =>
    intro acc
    simp only [List.foldl_cons]
    rcases ih (scanStep cfg hfun st row col acc i) with ⟨hdisj, hle, hall⟩
    by_cases he : eligible cfg st row col i
    · by_cases hlt : candidate cfg hfun st row col i < acc.1
      · rw [scanStep_eq, if_pos he, if_pos hlt] at hdisj hle hall ⊢
        refine ⟨?_, le_trans hle (le_of_lt hlt), ?_⟩
        · rcases hdisj with h | h
          · right; rw [h]; exact ⟨List.mem_cons_self _ _, he, rfl⟩
          · exact Or.inr ⟨List.mem_cons_of_mem _ h.1, h.2⟩
        · intro j hj hej
          rcases List.mem_cons.mp hj with rfl | hj'
          · exact hle
          · exact hall j hj' hej
      · rw [scanStep_eq, if_pos he, if_neg hlt] at hdisj hle hall ⊢
        refine ⟨?_, hle, ?_⟩
        · rcases hdisj with h | h
          · exact Or.inl h
          · exact Or.inr ⟨List.mem_cons_of_mem _ h.1, h.2⟩
        · intro j hj hej
          rcases List.mem_cons.mp hj with rfl | hj'
          · exact le_trans hle (not_lt.mp hlt)
          · exact hall j hj' hej
    · rw [scanStep_eq, if_neg he] at hdisj hle hall ⊢
      refine ⟨?_, hle, ?_⟩
      · rcases hdisj with h | h
        · exact Or.inl h
        · exact Or.inr ⟨List.mem_cons_of_mem _ h.1, h.2⟩
      · intro j hj hej
        rcases List.mem_cons.mp hj with rfl | hj'
        · exact absurd hej he
        · exact hall j hj' hej

/-- Full characterization of `cellStep`: the cell is left alone when its
value is 0 or no eligible neighbour offers a strictly smaller candidate;
otherwise an eligible, minimal candidate strictly below the current
value is written, the offset vector is recomputed from its neighbour,
and no other cell changes. -/
theorem cellStep_char (cfg : GridCfg) (hfun : GridCfg → ScanState → Int → Int → Nat → ℤ)
    (idxs : List Nat) (st : ScanState) (row col : Int) :
    ((getV cfg st.out row col = 0 ∨
        ¬ ∃ j ∈ idxs, eligible cfg st row col j ∧
          candidate cfg hfun st row col j < getV cfg st.out row col) →
      cellStep cfg hfun idxs st row col = st) ∧
    (getV cfg st.out row col ≠ 0 →
      (∃ j ∈ idxs, eligible cfg st row col j ∧
        candidate cfg hfun st row col j < getV cfg st.out row col) →
      ∃ i ∈ idxs, eligible cfg st row col i ∧
        candidate cfg hfun st row col i < getV cfg st.out row col ∧
        (∀ j ∈ idxs, eligible cfg st row col j →
          candidate cfg hfun st row col i ≤ candidate cfg hfun st row col j) ∧
        (cellStep cfg hfun idxs st row col).out row col =
          candidate cfg hfun st row col i ∧
        (cellStep cfg hfun idxs st row col).rx row col =
          getQ cfg st.rx (row + dy i) (col + dx i) + gx i ∧
        (cellStep cfg hfun idxs st row col).ry row col =
          getQ cfg st.ry (row + dy i) (col + dx i) + gy i ∧
        (∀ r c : Int, ¬ (r = row ∧ c = col) →
          (cellStep cfg hfun idxs st row col).out r c = st.out r c ∧
          (cellStep cfg hfun idxs st row col).rx r c = st.rx r c ∧
          (cellStep cfg hfun idxs st row col).ry r c = st.ry r c)) := by
  rcases scanFold_char cfg hfun st row col idxs ((⊤ : V), 0) with ⟨hdisj, _, hall⟩
  rw [← neighborScan_eq_foldl] at hdisj hall
  constructor
  · rintro (hz | hnone)
    · simp only [cellStep]
      rw [if_neg (by simpa using hz)]
    · simp only [cellStep]
      by_cases hz : getV cfg st.out row col ≠ 0
      · rw [if_pos hz, if_neg]
        intro hlt
        rcases hdisj with h | ⟨hm, he, heq⟩
        · rw [h] at hlt
          exact absurd hlt (by simp)
        · exact hnone ⟨_, hm, he, heq ▸ hlt⟩
      · rw [if_neg hz]
  · intro hz hex
    obtain ⟨j, hj, hej, hltj⟩ := hex
    have hp1 : (neighborScan cfg hfun st row col idxs).1 < getV cfg st.out row col :=
      lt_of_le_of_lt (hall j hj hej) hltj
    rcases hdisj with h | ⟨hm, he, heq⟩
    · rw [h] at hp1
      exact absurd hp1 (by simp)
    · refine ⟨(neighborScan cfg hfun st row col idxs).2, hm, he, heq ▸ hp1, ?_, ?_, ?_, ?_, ?_⟩
      · intro j' hj' hej'
        exact heq ▸ hall j' hj' hej'
      · simp only [cellStep]
        rw [if_pos hz, if_pos hp1]
        simp [updF, heq]
      · simp only [cellStep]
        rw [if_pos hz, if_pos hp1]
        simp [updF]
      · simp only [cellStep]
        rw [if_pos hz, if_pos hp1]
        simp [updF]
      · intro r c hrc
        simp only [cellStep]
        rw [if_pos hz, if_pos hp1]
        simp [updF, hrc]

/-! ### Monotonicity of the scans -/

/-- A `cellStep` at an in-bounds cell never increases any squared
distance. -/
theorem cellStep_out_le (cfg : GridCfg) (hfun : GridCfg → ScanState → Int → Int → Nat → ℤ)
    (idxs : List Nat) (st : ScanState) (row col : Int) (hin : inBounds cfg row col)
    (r c : Int) :
    (cellStep cfg hfun idxs st row col).out r c ≤ st.out r c := by
  simp only [cellStep]
  split_ifs with hz hp
  · by_cases hrc : r = row ∧ c = col
    · obtain ⟨rfl, rfl⟩ := hrc
      have hg : getV cfg st.out r c = st.out r c := if_pos hin
      simp only [updF, and_self, if_true, eq_self_iff_true]
      exact le_of_lt (hg ▸ hp)
    · simp only [updF, if_neg hrc]
      exact le_refl _
  · exact le_refl _
  · exact le_refl _

/-- A whole scan pass over in-bounds cells never increases any squared
distance. -/
theorem scanPass_out_le (cfg : GridCfg) (hfun : GridCfg → ScanState → Int → Int → Nat → ℤ)
    (idxs : List Nat) :
    ∀ (cells : List (Int × Int)), (∀ rc ∈ cells, inBounds cfg rc.1 rc.2) →
      ∀ (st : ScanState) (r c : Int),
        (scanPass cfg hfun idxs cells st).out r c ≤ st.out r c := by
  intro cells
  induction cells with
  | nil => intro _ st r c; exact le_refl _
  | cons rc cells ih =>
    intro hmem st r c
    have h1 := ih (fun p hp => hmem p (List.mem_cons_of_mem _ hp))
      (cellStep cfg hfun idxs st rc.1 rc.2) r c
    have h2 := cellStep_out_le cfg hfun idxs st rc.1 rc.2
      (hmem rc (List.mem_cons_self _ _)) r c
    exact le_trans h1 h2

/-- The traversal list holds exactly the in-bounds cells. -/
theorem mem_cellsFwd (cfg : GridCfg) (rc : Int × Int) :
    rc ∈ cellsFwd cfg ↔ inBounds cfg rc.1 rc.2 := by
  obtain ⟨a, b⟩ := rc
  constructor
  · intro h
    obtain ⟨r, hr, h2⟩ := List.mem_flatMap.mp h
    obtain ⟨c, hc, heq⟩ := List.mem_map.mp h2
    rw [List.mem_range] at hr hc
    rw [Prod.mk.injEq] at heq
    obtain ⟨rfl, rfl⟩ := heq
    refine ⟨?_, ?_, ?_, ?_⟩ <;> simp only [Int.ofNat_eq_coe] <;> omega
  · intro h
    refine List.mem_flatMap.mpr ⟨a.toNat, ?_, List.mem_map.mpr ⟨b.toNat, ?_, ?_⟩⟩
    · rw [List.mem_range]; omega
    · rw [List.mem_range]; omega
    · rw [Prod.mk.injEq]
      constructor <;> simp only [Int.ofNat_eq_coe] <;> omega

/-! ### Frame property: what a cell step reads -/

/-- Bounded reads agree when the raw grids agree at the point. -/
theorem getV_congr (cfg : GridCfg) {f g : Int → Int → V} {r c : Int}
    (h : f r c = g r c) : getV cfg f r c = getV cfg g r c := by
  unfold getV
  split_ifs
  · exact h
  · rfl

/-- Bounded scalar reads agree when the raw grids agree at the point. -/
theorem getQ_congr (cfg : GridCfg) {f g : Int → Int → ℤ} {r c : Int}
    (h : f r c = g r c) : getQ cfg f r c = getQ cfg g r c := by
  unfold getQ
  split_ifs
  · exact h
  · rfl

/-- One neighbour-loop step depends only on the squared distance and
step cost read at its own neighbour. -/
theorem scanStep_congr (cfg : GridCfg) (hfun : GridCfg → ScanState → Int → Int → Nat → ℤ)
    (st st' : ScanState) (row col : Int) (i : Nat)
    (hout : getV cfg st.out (row + dy i) (col + dx i) =
      getV cfg st'.out (row + dy i) (col + dx i))
    (hh : hfun cfg st (row + dy i) (col + dx i) i =
      hfun cfg st' (row + dy i) (col + dx i) i)
    (acc : V × Nat) :
    scanStep cfg hfun st row col acc i = scanStep cfg hfun st' row col acc i := by
  simp only [scanStep]
  rw [hout, hh]

/-- The whole neighbour loop depends only on what its steps read. -/
theorem foldl_scanStep_congr (cfg : GridCfg)
    (hfun : GridCfg → ScanState → Int → Int → Nat → ℤ)
    (st st' : ScanState) (row col : Int) :
    ∀ (idxs : List Nat) (acc : V × Nat),
      (∀ i ∈ idxs,
        getV cfg st.out (row + dy i) (col + dx i) =
          getV cfg st'.out (row + dy i) (col + dx i) ∧
        hfun cfg st (row + dy i) (col + dx i) i =
          hfun cfg st' (row + dy i) (col + dx i) i) →
      idxs.foldl (scanStep cfg hfun st row col) acc =
        idxs.foldl (scanStep cfg hfun st' row col) acc := by
  intro idxs
  induction idxs with
  | nil => intro acc _; rfl
  | cons i l ih =>
    intro acc hag
    simp only [List.foldl_cons]
    rw [scanStep_congr cfg hfun st st' row col i
      (hag i (List.mem_cons_self _ _)).1 (hag i (List.mem_cons_self _ _)).2]
    exact ih _ (fun j hj => hag j (List.mem_cons_of_mem _ hj))

/-- The new squared distance of a cell depends only on the cell's own
value and on the squared distances and step costs read at the loop's
neighbour indices. -/
theorem cellStep_frame (cfg : GridCfg) (hfun : GridCfg → ScanState → Int → Int → Nat → ℤ)
    (idxs : List Nat) (st st' : ScanState) (row col : Int)
    (hag : ∀ i ∈ idxs,
      getV cfg st.out (row + dy i) (col + dx i) =
        getV cfg st'.out (row + dy i) (col + dx i) ∧
      hfun cfg st (row + dy i) (col + dx i) i =
        hfun cfg st' (row + dy i) (col + dx i) i)
    (hc : st.out row col = st'.out row col) :
    (cellStep cfg hfun idxs st row col).out row col =
      (cellStep cfg hfun idxs st' row col).out row col := by
  have hz : getV cfg st.out row col = getV cfg st'.out row col := getV_congr cfg hc
  have hscan : neighborScan cfg hfun st row col idxs =
      neighborScan cfg hfun st' row col idxs := by
    rw [neighborScan_eq_foldl, neighborScan_eq_foldl]
    exact foldl_scanStep_congr cfg hfun st st' row col idxs _ hag
  simp only [cellStep]
  rw [hz, hscan]
  split_ifs with h1 h2
  · simp [updF]
  · exact hc
  · exact hc

/-! ### The argument-parsing front end of `run` (lines 139-168)

`run` first returns an `InvalidInput` error when `args.len() == 0`,
then loops over all indices: each argument is stripped of `"` and `'`
characters, split on `=`, its head lowercased with `--` collapsed to
`-`; on `-i`/`-input` (resp. `-o`/`-output`) the input (resp. output)
locator is taken from the part after `=` when present, otherwise from
`args[i + 1]` — an out-of-bounds index, hence a panic, when the flag is
the last argument.  Strings are modelled as their character lists. -/

/-- The double-quote character of `arg.replace("\x22", "")`. -/
def dquote : Char := Char.ofNat 34

/-- The single-quote character of the second `replace`. -/
def squote : Char := Char.ofNat 39

/-- Removing every occurrence of a one-character pattern is a filter. -/
def stripQuotes (s : List Char) : List Char :=
  (s.filter (fun ch => ch ≠ dquote)).filter (fun ch => ch ≠ squote)

/-- `arg.split("=")` for the one-character separator `=`. -/
def splitEq : List Char → List (List Char)
  | [] => [[]]
  | ch :: rest =>
    match splitEq rest with
    | [] => [[]]
    | s :: ss => if ch = '=' then [] :: s :: ss else (ch :: s) :: ss

/-- `to_lowercase` (ASCII suffices for every flag the tool compares). -/
def lowerStr (s : List Char) : List Char := s.map Char.toLower

/-- `str::replace("--", "-")`: non-overlapping, left to right. -/
def replaceDD : List Char → List Char
  | '-' :: '-' :: rest => '-' :: replaceDD rest
  | ch :: rest => ch :: replaceDD rest
  | [] => []

/-- Result of the argument loop: either the two collected locators or
the `args[i + 1]` out-of-bounds panic. -/
inductive ParseOut where
  | panicOOB
  | done (inputFile outputFile : List Char)
  deriving DecidableEq

/-- The `for i in 0..args.len()` loop, structurally: looking at
`args[i + 1]` is peeking at the head of the remaining list (which the
next iteration then processes again, exactly as the indexed loop
does). -/
def parseLoop : List Char → List Char → List String → ParseOut
  | inp, outp, [] => .done inp outp
  | inp, outp, a :: rest =>
    let arg := stripQuotes a.toList
    let vec := splitEq arg
    let flag_val := replaceDD (lowerStr (vec.headD []))
    if flag_val = ['-', 'i'] ∨ flag_val = ['-', 'i', 'n', 'p', 'u', 't'] then
      if 1 < vec.length then parseLoop (vec.getD 1 []) outp rest
      else
        match rest with
        | [] => .panicOOB
        | v :: _ => parseLoop v.toList outp rest
    else if flag_val = ['-', 'o'] ∨ flag_val = ['-', 'o', 'u', 't', 'p', 'u', 't'] then
      if 1 < vec.length then parseLoop inp (vec.getD 1 []) rest
      else
        match rest with
        | [] => .panicOOB
        | v :: _ => parseLoop inp v.toList rest
    else parseLoop inp outp rest

/-- How an invocation of `run` starts. -/
inductive RunStart where
  | invalidInput
  | panicOOB
  | proceed (inputFile outputFile : List Char)
  deriving DecidableEq

/-- The front end of `run`: the `args.len() == 0` check, then the
argument loop; on normal completion the tool proceeds to path
normalisation and `Raster::new` with the collected locators. -/
def runParse (args : List String) : RunStart :=
  if args.length = 0 then .invalidInput
  else
    match parseLoop [] [] args with
    | .panicOOB => .panicOOB
    | .done i o => .proceed i o

/-- The four bare locator flags. -/
def bareFlags : List String := ["-i", "--input", "-o", "--output"]

/-- A bare locator flag as last argument drives the loop into the
`args[i + 1]` panic. -/
theorem parseLoop_last_flag :
    ∀ (l : List String) (f : String), l.getLast? = some f → f ∈ bareFlags →
      ∀ (inp outp : List Char), parseLoop inp outp l = .panicOOB := by
  intro l
  induction l with
  | nil => intro f hf; simp at hf
  | cons a rest ih =>
    intro f hf hmem inp outp
    cases rest with
    | nil =>
      have ha : a = f := by
        rw [show ([a] : List String).getLast? = some a from rfl] at hf
        exact Option.some.inj hf
      rw [ha]
      simp only [bareFlags, List.mem_cons, List.not_mem_nil, or_false] at hmem
      rcases hmem with rfl | rfl | rfl | rfl <;> rfl
    | cons b rest' =>
      rw [List.getLast?_cons_cons] at hf
      rw [parseLoop]
      split_ifs with h1 h2 h3 h4
      · exact ih f hf hmem _ _
      · exact ih f hf hmem b.toList outp
      · exact ih f hf hmem _ _
      · exact ih f hf hmem inp b.toList
      · exact ih f hf hmem inp outp

/-! ### Concrete scenarios -/

/-- Scenario A configuration: 3×3 grid, nodata −32768, resolutions 1. -/
def cfgA : GridCfg := ⟨3, 3, -32768, 1, 1⟩

/-- Scenario A input: a single target at the centre, 0 elsewhere. -/
def inputA : Int → Int → ℤ := fun r c => if r = 1 ∧ c = 1 then 1 else 0

/-- Scenario B configuration: 1×5 grid, nodata −32768, resolutions 2
(so the cell size is 2). -/
def cfgB : GridCfg := ⟨1, 5, -32768, 2, 2⟩

/-- Scenario B input: target at index 0, 0 elsewhere. -/
def inputB : Int → Int → ℤ := fun r c => if r = 0 ∧ c = 0 then 1 else 0

/-- 5×8 grid used for the symmetry analysis. -/
def cfgS : GridCfg := ⟨5, 8, -32768, 1, 1⟩

/-- Two targets at (1,3) and (3,4) — images of each other under the
180° rotation `(r, c) ↦ (4 − r, 7 − c)` of the 5×8 grid. -/
def inputS : Int → Int → ℤ := fun r c =>
  if (r = 1 ∧ c = 3) ∨ (r = 3 ∧ c = 4) then 1 else 0

/-- 1×1 grid whose single cell holds the nodata sentinel. -/
def cfgN : GridCfg := ⟨1, 1, -32768, 1, 1⟩

/-- Its input: the sentinel value itself. -/
def inputN : Int → Int → ℤ := fun _ _ => -32768

/-- Scenario C input: scenario A with the sentinel at (0,0). -/
def inputC : Int → Int → ℤ := fun r c =>
  if r = 0 ∧ c = 0 then -32768 else if r = 1 ∧ c = 1 then 1 else 0

/-- All-infinity working state over `cfgA` (zero offsets). -/
def stTop : ScanState := ⟨fun _ _ => (⊤ : V), fun _ _ => 0, fun _ _ => 0⟩

/-- Like `stTop` but with squared distance 0 at (0,2), the northeast
neighbour of the cell (1,1). -/
def stNE : ScanState :=
  ⟨fun r c => if r = 0 ∧ c = 2 then 0 else (⊤ : V), fun _ _ => 0, fun _ _ => 0⟩

/-- Like `stTop` but with squared distance 0 at (2,0), the southwest
neighbour of the cell (1,1). -/
def stSW : ScanState :=
  ⟨fun r c => if r = 2 ∧ c = 0 then 0 else (⊤ : V), fun _ _ => 0, fun _ _ => 0⟩

/-- Like `stNE` but with an extra finite value at (2,2), a cell outside
the forward neighbour set of (1,1). -/
def stNE2 : ScanState :=
  ⟨fun r c => if r = 0 ∧ c = 2 then 0 else if r = 2 ∧ c = 2 then 5 else (⊤ : V),
    fun _ _ => 0, fun _ _ => 0⟩

/-- A 0/1-valued 3×3 input described by a Boolean matrix. -/
def input3 (f : Fin 3 → Fin 3 → Bool) : Int → Int → ℤ := fun r c =>
  if h : 0 ≤ r ∧ r < 3 ∧ 0 ≤ c ∧ c < 3 then
    (if f ⟨r.toNat, by omega⟩ ⟨c.toNat, by omega⟩ then 1 else 0)
  else 0

/-- The centre-only Boolean matrix (scenario A's target pattern). -/
def fCentre : Fin 3 → Fin 3 → Bool := fun i j =>
  decide (i = (1 : Fin 3)) && decide (j = (1 : Fin 3))

/-- Boolean check that `inputS` is 180°-rotation invariant on `cfgS`. -/
def symCheckS : Bool :=
  (cellsFwd cfgS).all (fun rc => inputS rc.1 rc.2 = inputS (4 - rc.1) (7 - rc.2))

/-- Evaluation rule of the Finalizer at a non-nodata cell with a known
finite squared distance. -/
theorem finalOutput_eval (cfg : GridCfg) (input : Int → Int → ℤ) (r c : Int) (q : ℤ)
    (hnd : getQ cfg input r c ≠ cfg.nodata) (hsq : finalSq cfg input r c = (q : V)) :
    finalOutput cfg input r c =
      ((Real.sqrt (q : ℝ) * (cellSize cfg : ℝ) : ℝ) : WithTop ℝ) := by
  simp only [finalOutput]
  rw [if_pos hnd, hsq]
  rfl

/-! ### The claims -/

/-- C1: the spec says the Initializer writes squared distance 0 exactly
at target cells (non-zero and not the sentinel) and claims in
particular that a sentinel-valued cell is initialized to `+infinity`.
The code's Initializer tests only `input.get_value(row, col) != 0.0`,
so the sentinel-valued cell of `cfgN`/`inputN` (value −32768, equal to
the configured nodata) receives squared distance 0, not `+infinity` —
contradicting the claim and the tool's own documentation, which defines
target cells as "all non-zero, non-NoData grid cells". -/
theorem claim_C1_init_sentinel_zero :
    getQ cfgN inputN 0 0 = cfgN.nodata ∧
    cfgN.nodata ≠ 0 ∧
    (initState cfgN inputN).out 0 0 = (0 : V) ∧
    (0 : V) ≠ (⊤ : V) := by
  refine ⟨by decide, by decide, by decide, by decide⟩

/-- C2 counterexample: the forward scanner's update of cell (1,1) is not
a function of the neighbours the claim lists — `stNE` and `stTop` agree
at the claimed offsets (−1,0) north, (−1,−1) northwest, (0,−1) west,
(1,−1) southwest of (1,1), and at (1,1) itself, with identical offset
grids, yet the forward cell step maps them to different squared
distances at (1,1), because it reads the northeast neighbour (0,2).
Dually, `stSW` and `stTop` agree at the claimed backward offsets south,
southeast, east, northeast, yet the backward cell step distinguishes
them via the southwest neighbour (2,0).  The fourth forward offset is
in fact (−1,1), northeast, not (1,−1). -/
theorem claim_C2_counterexample :
    (dy 3, dx 3) = ((-1 : Int), (1 : Int)) ∧
    ((-1 : Int), (1 : Int)) ≠ ((1 : Int), (-1 : Int)) ∧
    stNE.out 0 1 = stTop.out 0 1 ∧
    stNE.out 0 0 = stTop.out 0 0 ∧
    stNE.out 1 0 = stTop.out 1 0 ∧
    stNE.out 2 0 = stTop.out 2 0 ∧
    stNE.out 1 1 = stTop.out 1 1 ∧
    stNE.rx = stTop.rx ∧
    stNE.ry = stTop.ry ∧
    (cellStep cfgA hF [0, 1, 2, 3] stNE 1 1).out 1 1 = ((2 : ℤ) : V) ∧
    (cellStep cfgA hF [0, 1, 2, 3] stTop 1 1).out 1 1 = (⊤ : V) ∧
    ((2 : ℤ) : V) ≠ (⊤ : V) ∧
    stSW.out 2 1 = stTop.out 2 1 ∧
    stSW.out 2 2 = stTop.out 2 2 ∧
    stSW.out 1 2 = stTop.out 1 2 ∧
    stSW.out 0 2 = stTop.out 0 2 ∧
    stSW.out 1 1 = stTop.out 1 1 ∧
    (cellStep cfgA hB [4, 5, 6, 7] stSW 1 1).out 1 1 = ((2 : ℤ) : V) ∧
    (cellStep cfgA hB [4, 5, 6, 7] stTop 1 1).out 1 1 = (⊤ : V) := by
  refine ⟨by decide, by decide, by decide, by decide, by decide, by decide, by decide,
    rfl, rfl, by decide, by decide, by decide, by decide, by decide, by decide,
    by decide, by decide, by decide, by decide⟩

/-- C2 (amended): the ForwardScanner examines exactly the four
neighbours at relative (row, col) offsets (0,−1) west, (−1,−1)
northwest, (−1,0) north and (−1,1) northeast — the cells already
processed in top-left traversal order — and the BackwardScanner the
opposite four: (0,1) east, (1,1) southeast, (1,0) south and (1,−1)
southwest.  First conjunct: those are the offsets of the loops'
neighbour tables.  Second and third: the new squared distance of a cell
depends only on the working grids' values at the cell and at those four
offsets. -/
theorem claim_C2_neighbor_sets :
    ([0, 1, 2, 3].map (fun i => (dy i, dx i)) =
        [(0, -1), (-1, -1), (-1, 0), (-1, 1)] ∧
      [4, 5, 6, 7].map (fun i => (dy i, dx i)) =
        [(0, 1), (1, 1), (1, 0), (1, -1)]) ∧
    (∀ (cfg : GridCfg) (st st' : ScanState) (row col : Int),
      (∀ p ∈ ([(0, -1), (-1, -1), (-1, 0), (-1, 1)] : List (Int × Int)),
        st.out (row + p.1) (col + p.2) = st'.out (row + p.1) (col + p.2) ∧
        st.rx (row + p.1) (col + p.2) = st'.rx (row + p.1) (col + p.2) ∧
        st.ry (row + p.1) (col + p.2) = st'.ry (row + p.1) (col + p.2)) →
      st.out row col = st'.out row col →
      (cellStep cfg hF [0, 1, 2, 3] st row col).out row col =
        (cellStep cfg hF [0, 1, 2, 3] st' row col).out row col) ∧
    (∀ (cfg : GridCfg) (st st' : ScanState) (row col : Int),
      (∀ p ∈ ([(0, 1), (1, 1), (1, 0), (1, -1)] : List (Int × Int)),
        st.out (row + p.1) (col + p.2) = st'.out (row + p.1) (col + p.2) ∧
        st.rx (row + p.1) (col + p.2) = st'.rx (row + p.1) (col + p.2) ∧
        st.ry (row + p.1) (col + p.2) = st'.ry (row + p.1) (col + p.2)) →
      st.out row col = st'.out row col →
      (cellStep cfg hB [4, 5, 6, 7] st row col).out row col =
        (cellStep cfg hB [4, 5, 6, 7] st' row col).out row col) := by
  refine ⟨⟨by decide, by decide⟩, ?_, ?_⟩
  · intro cfg st st' row col hnb hc
    refine cellStep_frame cfg hF [0, 1, 2, 3] st st' row col ?_ hc
    intro i hi
    simp only [List.mem_cons, List.not_mem_nil, or_false] at hi
    rcases hi with rfl | rfl | rfl | rfl
    · obtain ⟨ho, hrx, hry⟩ := hnb (0, -1) (by simp)
      exact ⟨getV_congr cfg ho,
        congrArg (fun t => 2 * t + 1) (getQ_congr cfg hrx)⟩
    · obtain ⟨ho, hrx, hry⟩ := hnb (-1, -1) (by simp)
      exact ⟨getV_congr cfg ho,
        congrArg₂ (fun a b => 2 * (a + b + 1))
          (getQ_congr cfg hrx) (getQ_congr cfg hry)⟩
    · obtain ⟨ho, hrx, hry⟩ := hnb (-1, 0) (by simp)
      exact ⟨getV_congr cfg ho,
        congrArg (fun t => 2 * t + 1) (getQ_congr cfg hry)⟩
    · obtain ⟨ho, hrx, hry⟩ := hnb (-1, 1) (by simp)
      exact ⟨getV_congr cfg ho,
        congrArg₂ (fun a b => 2 * (a + b + 1))
          (getQ_congr cfg hrx) (getQ_congr cfg hry)⟩
  · intro cfg st st' row col hnb hc
    refine cellStep_frame cfg hB [4, 5, 6, 7] st st' row col ?_ hc
    intro i hi
    simp only [List.mem_cons, List.not_mem_nil, or_false] at hi
    rcases hi with rfl | rfl | rfl | rfl
    · obtain ⟨ho, hrx, hry⟩ := hnb (0, 1) (by simp)
      exact ⟨getV_congr cfg ho,
        congrArg (fun t => 2 * t + 1) (getQ_congr cfg hrx)⟩
    · obtain ⟨ho, hrx, hry⟩ := hnb (1, 1) (by simp)
      exact ⟨getV_congr cfg ho,
        congrArg₂ (fun a b => 2 * (a + b + 1))
          (getQ_congr cfg hrx) (getQ_congr cfg hry)⟩
    · obtain ⟨ho, hrx, hry⟩ := hnb (1, 0) (by simp)
      exact ⟨getV_congr cfg ho,
        congrArg (fun t => 2 * t + 1) (getQ_congr cfg hry)⟩
    · obtain ⟨ho, hrx, hry⟩ := hnb (1, -1) (by simp)
      exact ⟨getV_congr cfg ho,
        congrArg₂ (fun a b => 2 * (a + b + 1))
          (getQ_congr cfg hrx) (getQ_congr cfg hry)⟩

/-- C2 witness: two concrete states that agree on the amended forward
neighbour set of (1,1) (and at (1,1)) but differ at (2,2) are mapped to
the same squared distance at (1,1) by the forward cell step. -/
theorem claim_C2_witness :
    (cellStep cfgA hF [0, 1, 2, 3] stNE 1 1).out 1 1 =
      (cellStep cfgA hF [0, 1, 2, 3] stNE2 1 1).out 1 1 :=
  claim_C2_neighbor_sets.2.1 cfgA stNE stNE2 1 1 (by decide) (by decide)

/-- C3: in both scan passes the candidate offered by an eligible
(non-nodata) neighbour is its current squared distance plus the step
cost `h`, which is `2*o + 1` along an axis (with `o` the neighbour's
offset component along that axis: `rx` for the horizontal west/east
neighbours, `ry` for the vertical north/south ones) and
`2*(ox + oy + 1)` for the diagonal neighbours; the unit steps `gx`/`gy`
are 1 exactly on the axes the direction moves along; and a cell's
squared distance is overwritten exactly when some eligible candidate is
strictly below the current value, in which case it receives a minimal
such candidate and its offsets become the winning neighbour's offsets
plus that direction's unit step. -/
theorem claim_C3_step_cost_and_update :
    (∀ (cfg : GridCfg) (st : ScanState) (y x : Int), ∀ i ∈ [0, 1, 2, 3],
      hF cfg st y x i =
        if dy i = 0 then 2 * getQ cfg st.rx y x + 1
        else if dx i = 0 then 2 * getQ cfg st.ry y x + 1
        else 2 * (getQ cfg st.rx y x + getQ cfg st.ry y x + 1)) ∧
    (∀ (cfg : GridCfg) (st : ScanState) (y x : Int), ∀ i ∈ [4, 5, 6, 7],
      hB cfg st y x i =
        if dy i = 0 then 2 * getQ cfg st.rx y x + 1
        else if dx i = 0 then 2 * getQ cfg st.ry y x + 1
        else 2 * (getQ cfg st.rx y x + getQ cfg st.ry y x + 1)) ∧
    (∀ i ∈ [0, 1, 2, 3, 4, 5, 6, 7],
      gx i = (if dx i ≠ 0 then 1 else 0) ∧ gy i = (if dy i ≠ 0 then 1 else 0)) ∧
    (∀ (cfg : GridCfg) (hfun : GridCfg → ScanState → Int → Int → Nat → ℤ)
        (idxs : List Nat) (st : ScanState) (row col : Int),
      ((getV cfg st.out row col = 0 ∨
          ¬ ∃ j ∈ idxs, eligible cfg st row col j ∧
            candidate cfg hfun st row col j < getV cfg st.out row col) →
        cellStep cfg hfun idxs st row col = st) ∧
      (getV cfg st.out row col ≠ 0 →
        (∃ j ∈ idxs, eligible cfg st row col j ∧
          candidate cfg hfun st row col j < getV cfg st.out row col) →
        ∃ i ∈ idxs, eligible cfg st row col i ∧
          candidate cfg hfun st row col i < getV cfg st.out row col ∧
          (∀ j ∈ idxs, eligible cfg st row col j →
            candidate cfg hfun st row col i ≤ candidate cfg hfun st row col j) ∧
          (cellStep cfg hfun idxs st row col).out row col =
            candidate cfg hfun st row col i ∧
          (cellStep cfg hfun idxs st row col).rx row col =
            getQ cfg st.rx (row + dy i) (col + dx i) + gx i ∧
          (cellStep cfg hfun idxs st row col).ry row col =
            getQ cfg st.ry (row + dy i) (col + dx i) + gy i ∧
          (∀ r c : Int, ¬ (r = row ∧ c = col) →
            (cellStep cfg hfun idxs st row col).out r c = st.out r c ∧
            (cellStep cfg hfun idxs st row col).rx r c = st.rx r c ∧
            (cellStep cfg hfun idxs st row col).ry r c = st.ry r c))) := by
  refine ⟨?_, ?_, by decide, fun cfg hfun idxs st row col => cellStep_char cfg hfun idxs st row col⟩
  · intro cfg st y x i hi
    simp only [List.mem_cons, List.not_mem_nil, or_false] at hi
    rcases hi with rfl | rfl | rfl | rfl <;> simp [hF, dy, dx]
  · intro cfg st y x i hi
    simp only [List.mem_cons, List.not_mem_nil, or_false] at hi
    rcases hi with rfl | rfl | rfl | rfl <;> simp [hB, dy, dx]

/-- C3 witness: at the target cell (1,1) of scenario A the squared
distance is 0, so the forward cell step leaves the state untouched. -/
theorem claim_C3_witness :
    getV cfgA (initState cfgA inputA).out 1 1 = 0 ∧
    cellStep cfgA hF [0, 1, 2, 3] (initState cfgA inputA) 1 1 =
      initState cfgA inputA :=
  ⟨by decide,
    (claim_C3_step_cost_and_update.2.2.2 cfgA hF [0, 1, 2, 3]
      (initState cfgA inputA) 1 1).1 (Or.inl (by decide))⟩

/-- C7: squared distances are monotonically non-increasing along the
Initializer → ForwardScanner → BackwardScanner sequence: at every cell
the forward pass's output is at most the initialized value and the
backward pass's output is at most the forward pass's output. -/
theorem claim_C7_monotone :
    ∀ (cfg : GridCfg) (input : Int → Int → ℤ) (r c : Int),
      (forwardPass cfg input).out r c ≤ (initState cfg input).out r c ∧
      (backwardPass cfg input).out r c ≤ (forwardPass cfg input).out r c := by
  intro cfg input r c
  constructor
  · exact scanPass_out_le cfg hF [0, 1, 2, 3] (cellsFwd cfg)
      (fun rc h => (mem_cellsFwd cfg rc).mp h) (initState cfg input) r c
  · exact scanPass_out_le cfg hB [4, 5, 6, 7] (cellsFwd cfg).reverse
      (fun rc h => (mem_cellsFwd cfg rc).mp (List.mem_reverse.mp h))
      (forwardPass cfg input) r c

/-- C4: on scenario A (3×3, cell size 1, single centre target) the
output is `sqrt 2` (within `1e-8` of `1.41421356`) at the four corners,
exactly 1 at the four edge midpoints, and 0 at the centre. -/
theorem claim_C4_scenario_A :
    finalOutput cfgA inputA 0 0 = ((Real.sqrt 2 : ℝ) : WithTop ℝ) ∧
    finalOutput cfgA inputA 0 2 = ((Real.sqrt 2 : ℝ) : WithTop ℝ) ∧
    finalOutput cfgA inputA 2 0 = ((Real.sqrt 2 : ℝ) : WithTop ℝ) ∧
    finalOutput cfgA inputA 2 2 = ((Real.sqrt 2 : ℝ) : WithTop ℝ) ∧
    |Real.sqrt 2 - 1.41421356| < 1e-8 ∧
    finalOutput cfgA inputA 0 1 = ((1 : ℝ) : WithTop ℝ) ∧
    finalOutput cfgA inputA 1 0 = ((1 : ℝ) : WithTop ℝ) ∧
    finalOutput cfgA inputA 1 2 = ((1 : ℝ) : WithTop ℝ) ∧
    finalOutput cfgA inputA 2 1 = ((1 : ℝ) : WithTop ℝ) ∧
    finalOutput cfgA inputA 1 1 = ((0 : ℝ) : WithTop ℝ) := by
  have hcs : (cellSize cfgA : ℝ) = 1 := by norm_num [cellSize, cfgA]
  have hc2 : ∀ r c : Int, finalSq cfgA inputA r c = ((2 : ℤ) : V) →
      getQ cfgA inputA r c ≠ cfgA.nodata →
      finalOutput cfgA inputA r c = ((Real.sqrt 2 : ℝ) : WithTop ℝ) := by
    intro r c hsq hnd
    rw [finalOutput_eval cfgA inputA r c 2 hnd hsq, hcs]
    norm_num
  have hc1 : ∀ r c : Int, finalSq cfgA inputA r c = ((1 : ℤ) : V) →
      getQ cfgA inputA r c ≠ cfgA.nodata →
      finalOutput cfgA inputA r c = ((1 : ℝ) : WithTop ℝ) := by
    intro r c hsq hnd
    rw [finalOutput_eval cfgA inputA r c 1 hnd hsq, hcs]
    norm_num [Real.sqrt_one]
  have hbound : |Real.sqrt 2 - 1.41421356| < 1e-8 := by
    have hlo : (1.41421356 : ℝ) < Real.sqrt 2 :=
      (Real.lt_sqrt (by norm_num)).mpr (by norm_num)
    have hhi : Real.sqrt 2 < 1.41421357 :=
      (Real.sqrt_lt' (by norm_num)).mpr (by norm_num)
    rw [abs_sub_lt_iff]
    constructor <;> linarith
  refine ⟨hc2 0 0 (by decide) (by decide), hc2 0 2 (by decide) (by decide),
    hc2 2 0 (by decide) (by decide), hc2 2 2 (by decide) (by decide), hbound,
    hc1 0 1 (by decide) (by decide), hc1 1 0 (by decide) (by decide),
    hc1 1 2 (by decide) (by decide), hc1 2 1 (by decide) (by decide), ?_⟩
  rw [finalOutput_eval cfgA inputA 1 1 0 (by decide) (by decide), hcs]
  norm_num [Real.sqrt_zero]

/-- C5: at every non-nodata cell the Finalizer writes
`sqrt(squared distance) * cellSize` with `cellSize` the average of the
two resolutions; on scenario B (1×5, resolutions 2, target at index 0)
the output row is 0, 2, 4, 6, 8. -/
theorem claim_C5_finalizer :
    (∀ (cfg : GridCfg) (input : Int → Int → ℤ) (r c : Int),
      getQ cfg input r c ≠ cfg.nodata →
      finalOutput cfg input r c =
        WithTop.map (fun q : ℤ => Real.sqrt (q : ℝ) * (cellSize cfg : ℝ))
          (finalSq cfg input r c)) ∧
    cellSize cfgB = 2 ∧
    finalOutput cfgB inputB 0 0 = ((0 : ℝ) : WithTop ℝ) ∧
    finalOutput cfgB inputB 0 1 = ((2 : ℝ) : WithTop ℝ) ∧
    finalOutput cfgB inputB 0 2 = ((4 : ℝ) : WithTop ℝ) ∧
    finalOutput cfgB inputB 0 3 = ((6 : ℝ) : WithTop ℝ) ∧
    finalOutput cfgB inputB 0 4 = ((8 : ℝ) : WithTop ℝ) := by
  have hcs : (cellSize cfgB : ℝ) = 2 := by norm_num [cellSize, cfgB]
  have hsq : ∀ (r c : Int) (q : ℤ) (x : ℝ), finalSq cfgB inputB r c = (q : V) →
      getQ cfgB inputB r c ≠ cfgB.nodata → Real.sqrt (q : ℝ) * 2 = x →
      finalOutput cfgB inputB r c = ((x : ℝ) : WithTop ℝ) := by
    intro r c q x h1 h2 h3
    rw [finalOutput_eval cfgB inputB r c q h2 h1, hcs, h3]
  refine ⟨?_, by norm_num [cellSize, cfgB], ?_, ?_, ?_, ?_, ?_⟩
  · intro cfg input r c h
    simp only [finalOutput]
    rw [if_pos h]
  · refine hsq 0 0 0 0 (by decide) (by decide) ?_
    norm_num [Real.sqrt_zero]
  · refine hsq 0 1 1 2 (by decide) (by decide) ?_
    norm_num [Real.sqrt_one]
  · refine hsq 0 2 4 4 (by decide) (by decide) ?_
    rw [show ((4 : ℤ) : ℝ) = 2 ^ 2 by norm_num, Real.sqrt_sq (by norm_num)]
    norm_num
  · refine hsq 0 3 9 6 (by decide) (by decide) ?_
    rw [show ((9 : ℤ) : ℝ) = 3 ^ 2 by norm_num, Real.sqrt_sq (by norm_num)]
    norm_num
  · refine hsq 0 4 16 8 (by decide) (by decide) ?_
    rw [show ((16 : ℤ) : ℝ) = 4 ^ 2 by norm_num, Real.sqrt_sq (by norm_num)]
    norm_num

/-- C5 witness: the Finalizer rule instantiated at cell (0,1) of
scenario B. -/
theorem claim_C5_witness :
    finalOutput cfgB inputB 0 1 =
      WithTop.map (fun q : ℤ => Real.sqrt (q : ℝ) * (cellSize cfgB : ℝ))
        (finalSq cfgB inputB 0 1) :=
  claim_C5_finalizer.1 cfgB inputB 0 1 (by decide)

/-- C6: wherever the input holds the nodata sentinel, the Finalizer
writes the sentinel to the output, whatever the rest of the grid
holds. -/
theorem claim_C6_nodata_propagation :
    ∀ (cfg : GridCfg) (input : Int → Int → ℤ) (r c : Int),
      getQ cfg input r c = cfg.nodata →
      finalOutput cfg input r c = ((cfg.nodata : ℝ) : WithTop ℝ) := by
  intro cfg input r c h
  simp only [finalOutput]
  rw [if_neg (not_not_intro h)]

/-- C6 witness: scenario C — scenario A with the sentinel at (0,0) —
outputs the sentinel at (0,0). -/
theorem claim_C6_witness :
    getQ cfgA inputC 0 0 = cfgA.nodata ∧
    finalOutput cfgA inputC 0 0 = ((cfgA.nodata : ℝ) : WithTop ℝ) :=
  ⟨by decide, claim_C6_nodata_propagation cfgA inputC 0 0 (by decide)⟩

/-- C8 counterexample: the 5×8 input `inputS`, whose target
configuration (targets at (1,3) and (3,4)) is invariant under the 180°
rotation `(r, c) ↦ (4 − r, 7 − c)`, produces squared distance 18 at
(0,7) but 17 at the rotated cell (4,0), so the output distance grid is
not invariant under the rotation. -/
theorem claim_C8_counterexample :
    symCheckS = true ∧
    finalSq cfgS inputS 0 7 = ((18 : ℤ) : V) ∧
    finalSq cfgS inputS 4 0 = ((17 : ℤ) : V) ∧
    finalOutput cfgS inputS 0 7 ≠ finalOutput cfgS inputS 4 0 := by
  refine ⟨by decide, by decide, by decide, ?_⟩
  rw [finalOutput_eval cfgS inputS 0 7 18 (by decide) (by decide),
    finalOutput_eval cfgS inputS 4 0 17 (by decide) (by decide)]
  have hcs : (cellSize cfgS : ℝ) = 1 := by norm_num [cellSize, cfgS]
  rw [hcs, mul_one, mul_one]
  intro h
  have h17 : Real.sqrt ((17 : ℤ) : ℝ) < Real.sqrt ((18 : ℤ) : ℝ) :=
    Real.sqrt_lt_sqrt (by norm_num) (by norm_num)
  exact absurd (WithTop.coe_injective h) (ne_of_gt h17)

/-- C8 (amended): on 3×3 grids the rotation invariance does hold — for
every 0/1-valued 3×3 input (sentinel −32768) whose target configuration
is invariant under the 180° rotation `(r, c) ↦ (2 − r, 2 − c)`, the
squared-distance grid after both scans, and hence the output distance
grid, is invariant under the same rotation; from 5×8 upward it fails
(see the counterexample). -/
theorem claim_C8_symmetry_3x3 :
    ∀ f : Fin 3 → Fin 3 → Bool,
      (∀ i j : Fin 3, f i j = f (2 - i) (2 - j)) →
      ∀ i j : Fin 3,
        finalSq cfgA (input3 f) ((i : Int)) ((j : Int)) =
          finalSq cfgA (input3 f) (2 - (i : Int)) (2 - (j : Int)) ∧
        finalOutput cfgA (input3 f) ((i : Int)) ((j : Int)) =
          finalOutput cfgA (input3 f) (2 - (i : Int)) (2 - (j : Int)) := by
  have hsq : ∀ f : Fin 3 → Fin 3 → Bool,
      (∀ i j : Fin 3, f i j = f (2 - i) (2 - j)) →
      ∀ i j : Fin 3,
        finalSq cfgA (input3 f) ((i : Int)) ((j : Int)) =
          finalSq cfgA (input3 f) (2 - (i : Int)) (2 - (j : Int)) := by decide
  have hnd1 : ∀ (f : Fin 3 → Fin 3 → Bool) (i j : Fin 3),
      getQ cfgA (input3 f) ((i : Int)) ((j : Int)) ≠ cfgA.nodata := by decide
  have hnd2 : ∀ (f : Fin 3 → Fin 3 → Bool) (i j : Fin 3),
      getQ cfgA (input3 f) (2 - (i : Int)) (2 - (j : Int)) ≠ cfgA.nodata := by decide
  intro f hsym i j
  refine ⟨hsq f hsym i j, ?_⟩
  simp only [finalOutput]
  rw [if_pos (hnd1 f i j), if_pos (hnd2 f i j), hsq f hsym i j]

/-- C8 witness: the amended invariance instantiated at the centre-only
pattern (scenario A's targets) and the corner (0,0). -/
theorem claim_C8_witness :
    finalSq cfgA (input3 fCentre) (((0 : Fin 3) : Int)) (((0 : Fin 3) : Int)) =
      finalSq cfgA (input3 fCentre) (2 - ((0 : Fin 3) : Int)) (2 - ((0 : Fin 3) : Int)) :=
  (claim_C8_symmetry_3x3 fCentre (by decide) 0 0).1

/-- C9 counterexample: the invocation `["-v"]` supplies neither the
input nor the output locator, yet `run` does not report the
invalid-input error — the argument loop completes with empty locators
and the tool proceeds (towards path normalisation and reading the
input raster). -/
theorem claim_C9_counterexample :
    runParse ["-v"] = RunStart.proceed [] [] ∧
    RunStart.proceed [] [] ≠ RunStart.invalidInput := by
  refine ⟨by decide, by decide⟩

/-- C9 (amended): the distinguished invalid-input error is reported
immediately exactly when the argument list is empty; any non-empty
argument list — locators supplied or not — gets past that check, so a
missing locator alone does not stop the computation from starting. -/
theorem claim_C9_invalid_input :
    ∀ args : List String, runParse args = RunStart.invalidInput ↔ args = [] := by
  intro args
  constructor
  · intro h
    by_contra hne
    rw [runParse, if_neg (by simpa [List.length_eq_zero] using hne)] at h
    cases hp : parseLoop [] [] args <;> rw [hp] at h <;> exact RunStart.noConfusion h
  · rintro rfl
    rfl

/-- C10: whenever the last argument is one of the bare flags `-i`,
`--input`, `-o`, `--output` (no `=value` attached, no following
argument), `run` panics with the out-of-bounds index `args[i + 1]`
instead of returning an error value. -/
theorem claim_C10_panic :
    ∀ (args : List String) (f : String), f ∈ bareFlags →
      args.getLast? = some f → runParse args = RunStart.panicOOB := by
  intro args f hmem hlast
  have hne : args ≠ [] := by
    rintro rfl
    simp at hlast
  rw [runParse, if_neg (by simpa [List.length_eq_zero] using hne),
    parseLoop_last_flag args f hlast hmem [] []]

/-- C10 witness: the single-argument invocation `["--output"]`
panics. -/
theorem claim_C10_witness :
    ("--output" ∈ bareFlags) ∧
    (["--output"] : List String).getLast? = some "--output" ∧
    runParse ["--output"] = RunStart.panicOOB :=
  ⟨by decide, by decide, claim_C10_panic ["--output"] "--output" (by decide) (by decide)⟩

end EuclideanDistance
